import Mathlib

/-!
Verification development for the `quant` repository.

The repository has two pipelines:
  * `quant.py`  — screening: `add_indicators` (RSI/bands/ATR over pandas frames),
    a market/sector regime check, ranking by RSI, and exit-target prices;
  * `wb.py` — valuation: `analyze_stock` fits an OLS trend to annual EPS, derives a
    CAGR, a projected P/E multiple, and an intrinsic value.

The embedding below translates the arithmetic of those files into Lean:
pandas float cells become an explicit type with NaN and infinities, machine floats
are idealized as exact rationals, and Python exceptions become `Option`/explicit
environment modelling.  All definitions are computable so concrete runs can be
checked by `decide`.
-/

/-! ## wb.py — `analyze_stock` valuation arithmetic -/

/-- Slope of `np.polyfit(x, y, 1)` with `x = 0, 1, ..., n-1` (ordinary least squares):
`sum((x - xbar) * (y - ybar)) / sum((x - xbar)^2)`. -/
def polyfitSlope (y : List ℚ) : ℚ :=
  let n := y.length
  let xm : ℚ := ((n : ℚ) - 1) / 2
  let ym : ℚ := y.sum / (n : ℚ)
  let sxy := ((List.range n).map (fun (i : ℕ) => ((i : ℚ) - xm) * (y.getD i 0 - ym))).sum
  let sxx := ((List.range n).map (fun (i : ℕ) => ((i : ℚ) - xm) ^ 2)).sum
  sxy / sxx

/-- Intercept of `np.polyfit(x, y, 1)`: `ybar - slope * xbar`. -/
def polyfitIntercept (y : List ℚ) : ℚ :=
  y.sum / (y.length : ℚ) - polyfitSlope y * (((y.length : ℚ) - 1) / 2)

/-- Trendline start: `reg_start = intercept` (wb.py line 57): trendline value at the first year. -/
def reg_start (y : List ℚ) : ℚ := polyfitIntercept y

/-- Trendline end: `reg_end = slope * (n_points - 1) + intercept` (wb.py line 58): trendline value at
the last year. -/
def reg_end (y : List ℚ) : ℚ := polyfitSlope y * ((y.length : ℚ) - 1) + polyfitIntercept y

/-- Result of the CAGR branch logic of wb.py lines 46-72, kept symbolic so the
embedding stays computable: `formula r k` denotes the real number `r ^ (1/k) - 1`
(the branch `cagr = (reg_end / reg_start) ** (1 / (n_points - 1)) - 1`), `pct5`
denotes `0.05` and `pct0` denotes `0.0`. -/
inductive Cagr where
  | formula : ℚ → ℕ → Cagr
  | pct5 : Cagr
  | pct0 : Cagr
deriving DecidableEq

/-- CAGR selection of wb.py lines 46-72.  `cagr = 0.05` initially; inside
`if n_points >= 2`, branch (a) fires when both trendline endpoints are positive,
branch (b) (`elif slope > 0`) yields the 5% default and branch (c) yields 0%.
The final NaN guard (`if np.isnan(cagr): cagr = 0.05`, line 72) is unreachable in
exact arithmetic — branch (a) has a positive base, so its power is a real number —
and is therefore modelled as the identity. -/
def computeCagr (y : List ℚ) : Cagr :=
  if 2 ≤ y.length then
    if 0 < reg_start y ∧ 0 < reg_end y then
      Cagr.formula (reg_end y / reg_start y) (y.length - 1)
    else if 0 < polyfitSlope y then Cagr.pct5
    else Cagr.pct0
  else Cagr.pct5

/-- Latest EPS: `end_eps = float(eps_data.iloc[-1])` (wb.py line 124): the raw latest reported
EPS, not a trendline value. -/
def end_eps (y : List ℚ) : ℚ := y.getLast?.getD 0

/-- Projection base: `base_eps = end_eps` (wb.py line 125): the earnings base used for the 10-year
projection. -/
def base_eps (y : List ℚ) : ℚ := end_eps y

/-- Fallback current-P/E computation of wb.py lines 89-93, with the Python local
environment made explicit.  The `try` block reads `hist.Close.iloc[-1]` (modelled
as `Option`: `none` raises) and then evaluates
`curr_price / end_eps if end_eps > 0 else 15.0`.  The name `end_eps` is only
assigned at line 124, *after* this point, so evaluating it raises `NameError`;
the bare `except` turns any of these exceptions into `15.0`.  The first argument
is the binding of `end_eps` in scope at the time of evaluation. -/
def fallback_pe (end_eps_binding : Option ℚ) (latestClose : Option ℚ) : ℚ :=
  match latestClose with
  | none => 15
  | some price =>
    match end_eps_binding with
    | none => 15
    | some e => if 0 < e then price / e else 15

/-- Current P/E, `current_pe`, as wb.py lines 76 and 88-93 actually compute it: the trailing P/E
when available, otherwise the fallback evaluated in an environment where `end_eps`
is not yet bound. -/
def current_pe (trailingPE : Option ℚ) (latestClose : Option ℚ) : ℚ :=
  match trailingPE with
  | some pe => pe
  | none => fallback_pe none latestClose

/-- Comparison definition following the words of the spec (section 4.4): when the
trailing P/E is unavailable, derive it from latest price over latest earnings,
falling back to 15.0 only for non-positive earnings. -/
def current_pe_spec (trailingPE : Option ℚ) (latestClose latestEps : ℚ) : ℚ :=
  match trailingPE with
  | some pe => pe
  | none => if 0 < latestEps then latestClose / latestEps else 15

/-- Historical P/E multiples of wb.py lines 95-111.  Each pair is
`(eps_val, price_at_date)` for one earnings year (years whose nearest-price lookup
raised are absent, mirroring the `except: pass`).  Years with `eps_val <= 0` are
skipped; a multiple is retained only when `0 < pe < 150`. -/
def pe_ratios (pairs : List (ℚ × ℚ)) : List ℚ :=
  pairs.filterMap (fun p =>
    if p.1 ≤ 0 then none
    else
      let pe := p.2 / p.1
      if 0 < pe ∧ pe < 150 then some pe else none)

/-- Historical average multiple `avg_pe` of wb.py lines 113-116: the mean of the retained multiples, defaulting
to the current P/E when none survived. -/
def avg_pe (pairs : List (ℚ × ℚ)) (currentPE : ℚ) : ℚ :=
  let ps := pe_ratios pairs
  if ps = [] then currentPE else ps.sum / (ps.length : ℚ)

/-- Projected multiple `projected_pe` of wb.py lines 118-119: `min(current_pe, avg_pe)` floored at 5. -/
def projected_pe (pairs : List (ℚ × ℚ)) (currentPE : ℚ) : ℚ :=
  let p := min currentPE (avg_pe pairs currentPE)
  if p < 5 then 5 else p

/-- A strictly decreasing, everywhere-positive EPS series: OLS slope is negative
while both trendline endpoints stay positive. -/
def y_negslope : List ℚ := [18, 16, 14, 12, 10]

/-- A convex EPS series whose raw last value (30) differs from the trendline end
value (25.2). -/
def y_convex : List ℚ := [10, 12, 14, 16, 30]

/-- The perfectly linear example series from the spec, section 8. -/
def y_linear : List ℚ := [10, 12, 14, 16, 18]

/-! ## quant.py — market/sector regime check (lines 45-48 and 52-57) -/

/-- Latest 50-bar mean, `closes.rolling(50).mean().iloc[-1]`: the 50-bar simple moving average at the
latest bar; `none` models the NaN produced when fewer than 50 bars exist. -/
def sma50Last (closes : List ℚ) : Option ℚ :=
  if 50 ≤ closes.length then some ((closes.drop (closes.length - 50)).sum / 50)
  else none

/-- The regime check `closes.iloc[-1] > closes.rolling(50).mean().iloc[-1]`
(quant.py lines 47 and 57).  On an empty series `iloc[-1]` raises `IndexError`
(and the unguarded broad-market path at line 47 crashes): modelled as `none`.
On a nonempty series a comparison against NaN evaluates to `False`. -/
def regimeBullish (closes : List ℚ) : Option Bool :=
  match closes.getLast? with
  | none => none
  | some c =>
    match sma50Last closes with
    | none => some false
    | some m => some (decide (m < c))

/-- Sector regime as consumed by the scan: quant.py line 55 guards with
`if not sdf.empty`, so an empty sector series is never inserted into
`sector_bullish_map` and line 75 reads it back with default `False`. -/
def sector_bullish (closes : List ℚ) : Bool :=
  (regimeBullish closes).getD false

/-- A 50-bar strictly increasing close series. -/
def demoCloses50 : List ℚ := (List.range 50).map (fun i => (i : ℚ))

/-! ## quant.py — ranking and exit targets (lines 90 and 99) -/

/-- One entry of `scanner_results` (quant.py lines 84-86).  RSI values in produced
rows are never NaN (they come from a frame returned by `df.dropna()`), so `rsi`
is a plain rational. -/
structure ScanRow where
  symbol : String
  rsi : ℚ
  dist : ℚ
  price : ℚ
  sBull : Bool
  rsTrend : ℚ
deriving DecidableEq

/-- Shortlist construction `pd.DataFrame(scanner_results).sort_values(by="RSI").head(10)` (quant.py
line 90): sort ascending by RSI, take the first ten rows. -/
def shortlist (rows : List ScanRow) : List ScanRow :=
  (List.insertionSort (fun a b => a.rsi ≤ b.rsi) rows).take 10

/-- Exit target `target_price = s.Price * (1 + (abs(s.Dist)/100) + 0.03)` (quant.py line 99). -/
def target_price (price dist : ℚ) : ℚ :=
  price * (1 + |dist| / 100 + 3 / 100)

/-! ## quant.py — `add_indicators` (lines 16-30)

Pandas float cells are modelled by `F`: a rational value, NaN, or an infinity.
The input price bars are actual market data, so their own cells are plain
rationals; NaN and `inf` only arise from the indicator arithmetic
(`diff()` warm-up, rolling-window warm-up, and `gain/loss` division by zero). -/

/-- A pandas float cell: NaN, positive/negative infinity, or a rational value. -/
inductive F where
  | nan : F
  | inf : F
  | ninf : F
  | val : ℚ → F
deriving DecidableEq

namespace F

/-- NaN test, as used by `dropna()`. -/
def isNan : F → Bool
  | nan => true
  | _ => false

/-- IEEE-style negation. -/
def neg : F → F
  | nan => nan
  | inf => ninf
  | ninf => inf
  | val q => val (-q)

/-- IEEE-style addition (NaN propagates; `inf + -inf = NaN`). -/
def add : F → F → F
  | nan, _ => nan
  | _, nan => nan
  | inf, ninf => nan
  | ninf, inf => nan
  | inf, _ => inf
  | _, inf => inf
  | ninf, _ => ninf
  | _, ninf => ninf
  | val a, val b => val (a + b)

/-- IEEE-style subtraction. -/
def sub (a b : F) : F := add a (neg b)

/-- IEEE-style division as numpy performs it on series: NaN propagates,
`x / 0` is a signed infinity for `x ≠ 0` and NaN for `x = 0`, and a finite
value divided by an infinity is 0. -/
def div : F → F → F
  | nan, _ => nan
  | _, nan => nan
  | inf, inf => nan
  | inf, ninf => nan
  | ninf, inf => nan
  | ninf, ninf => nan
  | inf, val b => if b < 0 then ninf else inf
  | ninf, val b => if b < 0 then inf else ninf
  | val _, inf => val 0
  | val _, ninf => val 0
  | val a, val b =>
    if b = 0 then (if a = 0 then nan else if 0 < a then inf else ninf)
    else val (a / b)

/-- The rational carried by a finite cell (0 for NaN and infinities; only used
on windows already checked to be NaN-free and finite). -/
def toQ : F → ℚ
  | val q => q
  | _ => 0

end F

/-- Rolling mean `series.rolling(k).mean()` with the pandas default `min_periods = k`: NaN for
the first `k - 1` positions and whenever the window contains a NaN, otherwise the
arithmetic mean of the `k`-cell window ending at the position. -/
def rollingMean (k : ℕ) (l : List F) : List F :=
  (List.range l.length).map (fun i =>
    if i + 1 < k then F.nan
    else
      let w := (l.take (i + 1)).drop (i + 1 - k)
      if w.any F.isNan then F.nan else F.val ((w.map F.toQ).sum / (k : ℚ)))

/-- Cell of the `Std`, `Lower` and `Upper` columns.  The 20-bar rolling standard
deviation is irrational, so these cells are kept in exact symbolic form:
`SCell.val a b v` denotes the real number `a + b * Real.sqrt v`.  The embedding
never needs the numeric value, only whether the cell is NaN, which this
representation decides exactly. -/
inductive SCell where
  | nan : SCell
  | val : ℚ → ℚ → ℚ → SCell
deriving DecidableEq

/-- NaN test for symbolic cells. -/
def SCell.isNan : SCell → Bool
  | SCell.nan => true
  | _ => false

/-- Sample variance of a window with `ddof = 1` (the pandas `rolling(...).std()`
default): `sum((x - mean)^2) / (len - 1)`.  The rolling standard deviation is its
square root. -/
def sampleVar (w : List ℚ) : ℚ :=
  let m := w.sum / (w.length : ℚ)
  (w.map (fun x => (x - m) ^ 2)).sum / ((w.length : ℚ) - 1)

/-- Rolling standard deviation `series.rolling(k).std()`: NaN for the first `k - 1` positions, otherwise the
square root of the sample variance of the window, represented symbolically as
`0 + 1 * Real.sqrt (sampleVar window)`. -/
def rollingStd (k : ℕ) (closes : List ℚ) : List SCell :=
  (List.range closes.length).map (fun i =>
    if i + 1 < k then SCell.nan
    else SCell.val 0 1 (sampleVar ((closes.take (i + 1)).drop (i + 1 - k))))

/-- One row of raw price data (the columns `add_indicators` reads; market data
contains no NaN, so the fields are plain rationals). -/
structure PriceBar where
  high : ℚ
  low : ℚ
  close : ℚ
deriving DecidableEq, Inhabited

/-- A pandas DataFrame as `add_indicators` sees it: the raw bars plus the six
indicator columns, each of which may be absent (`none`) or present. -/
structure DF where
  bars : List PriceBar
  rsi : Option (List F)
  sma20 : Option (List F)
  std : Option (List SCell)
  lower : Option (List SCell)
  upper : Option (List SCell)
  atr : Option (List F)
deriving DecidableEq

/-- A frame carrying only price data, with no indicator columns. -/
def mkDF (bars : List PriceBar) : DF :=
  { bars := bars, rsi := none, sma20 := none, std := none,
    lower := none, upper := none, atr := none }

/-- The empty frame `pd.DataFrame()` returned on short input. -/
def emptyDF : DF := mkDF []

/-- The close column of the raw bars. -/
def closesOf (bars : List PriceBar) : List ℚ := bars.map (fun b => b.close)

/-- Close differences `delta = df.Close.diff()` (quant.py line 18): NaN at position 0, otherwise the
difference with the previous close. -/
def delta (closes : List ℚ) : List F :=
  (List.range closes.length).map (fun i =>
    if i = 0 then F.nan else F.val (closes.getD i 0 - closes.getD (i - 1) 0))

/-- Gains `delta.where(delta > 0, 0)` (quant.py line 19): keep positive deltas, replace
everything else — including the leading NaN, for which the comparison is
`False` — with 0. -/
def gain (closes : List ℚ) : List F :=
  (delta closes).map (fun d =>
    match d with
    | F.val q => if 0 < q then F.val q else F.val 0
    | F.inf => F.inf
    | _ => F.val 0)

/-- Losses `-delta.where(delta < 0, 0)` (quant.py line 20): negated negative deltas,
everything else 0. -/
def loss (closes : List ℚ) : List F :=
  (delta closes).map (fun d =>
    match d with
    | F.val q => if q < 0 then F.val (-q) else F.val 0
    | F.ninf => F.inf
    | _ => F.val 0)

/-- Average gain `gain.rolling(14).mean()`. -/
def gainAvg (closes : List ℚ) : List F := rollingMean 14 (gain closes)

/-- Average loss `loss.rolling(14).mean()`. -/
def lossAvg (closes : List ℚ) : List F := rollingMean 14 (loss closes)

/-- The elementwise RSI formula `100 - (100 / (1 + gain/loss))` (quant.py
line 21). -/
def rsiOf (g l : F) : F :=
  F.sub (F.val 100) (F.div (F.val 100) (F.add (F.val 1) (F.div g l)))

/-- The `RSI` column. -/
def rsiCol (closes : List ℚ) : List F :=
  List.zipWith rsiOf (gainAvg closes) (lossAvg closes)

/-- The `SMA20` column: `df.Close.rolling(20).mean()` (quant.py line 22). -/
def sma20Col (closes : List ℚ) : List F := rollingMean 20 (closes.map F.val)

/-- The `Std` column: `df.Close.rolling(20).std()` (quant.py line 23). -/
def stdCol (closes : List ℚ) : List SCell := rollingStd 20 closes

/-- The `Lower` column: `SMA20 - 2 * Std` (quant.py line 24), computed on the
symbolic representation: `(m) - 2 * (a + b * sqrt v) = (m - 2a) + (-2b) * sqrt v`.
NaN if either operand is NaN. -/
def lowerCol (closes : List ℚ) : List SCell :=
  List.zipWith (fun m s =>
    match m, s with
    | F.val q, SCell.val a b v => SCell.val (q - 2 * a) (-(2 * b)) v
    | _, _ => SCell.nan) (sma20Col closes) (stdCol closes)

/-- The `Upper` column: `SMA20 + 1.5 * Std` (quant.py line 25). -/
def upperCol (closes : List ℚ) : List SCell :=
  List.zipWith (fun m s =>
    match m, s with
    | F.val q, SCell.val a b v => SCell.val (q + (3 / 2) * a) ((3 / 2) * b) v
    | _, _ => SCell.nan) (sma20Col closes) (stdCol closes)

/-- The true range (quant.py lines 26-29): the rowwise maximum — pandas
`max(axis=1)` skips NaN — of `high - low`, `|high - prev close|` and
`|low - prev close|`; at row 0 the shifted close is NaN, leaving `high - low`. -/
def trueRange (bars : List PriceBar) : List ℚ :=
  (List.range bars.length).map (fun i =>
    let b := bars.getD i default
    let hl := b.high - b.low
    if i = 0 then hl
    else
      let pc := (bars.getD (i - 1) default).close
      max hl (max |b.high - pc| |b.low - pc|))

/-- The `ATR` column: the 14-bar rolling mean of the true range (quant.py
line 29). -/
def atrCol (bars : List PriceBar) : List F :=
  rollingMean 14 ((trueRange bars).map F.val)

/-- Row predicate of `df.dropna()`: a row survives when none of the six indicator
cells is NaN (the raw price cells are never NaN). -/
def keep (bars : List PriceBar) (i : ℕ) : Bool :=
  !((rsiCol (closesOf bars)).getD i F.nan).isNan
  && !((sma20Col (closesOf bars)).getD i F.nan).isNan
  && !((stdCol (closesOf bars)).getD i SCell.nan).isNan
  && !((lowerCol (closesOf bars)).getD i SCell.nan).isNan
  && !((upperCol (closesOf bars)).getD i SCell.nan).isNan
  && !((atrCol bars).getD i F.nan).isNan

/-- Indices of the rows kept by `dropna()`. -/
def keepIdx (bars : List PriceBar) : List ℕ :=
  (List.range bars.length).filter (keep bars)

/-- Result of `df.dropna()` applied to the frame with all six indicator columns. -/
def dropnaDF (bars : List PriceBar) : DF :=
  { bars := (keepIdx bars).map (fun i => bars.getD i default)
    rsi := some ((keepIdx bars).map (fun i => (rsiCol (closesOf bars)).getD i F.nan))
    sma20 := some ((keepIdx bars).map (fun i => (sma20Col (closesOf bars)).getD i F.nan))
    std := some ((keepIdx bars).map (fun i => (stdCol (closesOf bars)).getD i SCell.nan))
    lower := some ((keepIdx bars).map (fun i => (lowerCol (closesOf bars)).getD i SCell.nan))
    upper := some ((keepIdx bars).map (fun i => (upperCol (closesOf bars)).getD i SCell.nan))
    atr := some ((keepIdx bars).map (fun i => (atrCol bars).getD i F.nan)) }

/-- Main entry `add_indicators(df)` (quant.py lines 16-30).  The first component is the
state of the caller frame after the call — the column assignments
`df[...] = ...` mutate `df` in place — and the second component is the returned
frame.  On short input (`df.empty or len(df) < 20`) the input is untouched and an
empty frame is returned; otherwise the six indicator columns are written into the
caller frame and `df.dropna()` is returned. -/
def add_indicators (df : DF) : DF × DF :=
  if df.bars.isEmpty ∨ df.bars.length < 20 then (df, emptyDF)
  else
    let closes := closesOf df.bars
    ({ df with
        rsi := some (rsiCol closes)
        sma20 := some (sma20Col closes)
        std := some (stdCol closes)
        lower := some (lowerCol closes)
        upper := some (upperCol closes)
        atr := some (atrCol df.bars) },
      dropnaDF df.bars)

/-- A 20-bar strictly increasing price series (every delta is `+1`, so every
rolling average loss is 0). -/
def demoBars : List PriceBar :=
  (List.range 20).map (fun i =>
    { high := (i : ℚ) + 1, low := (i : ℚ) + 1, close := (i : ℚ) + 1 })

/-- A 3-bar series: too short for any indicator. -/
def shortBars : List PriceBar :=
  [{ high := 2, low := 1, close := 1 }, { high := 3, low := 2, close := 3 },
    { high := 4, low := 2, close := 2 }]

/-! ## Helper lemmas -/

/-- Value of `getD` at an in-range index is the corresponding element. -/
theorem getD_of_lt {α : Type} (l : List α) (i : ℕ) (d : α) (h : i < l.length) :
    l.getD i d = l[i] := by
  simp [List.getD_eq_getElem?_getD, List.getElem?_eq_getElem h]

/-- Value of `getD` out of range is the default. -/
theorem getD_of_le {α : Type} (l : List α) (i : ℕ) (d : α) (h : l.length ≤ i) :
    l.getD i d = d := by
  simp [List.getD_eq_getElem?_getD, List.getElem?_eq_none h]

/-- Value of `getD` on a mapped range. -/
theorem getD_range_map {α : Type} (f : ℕ → α) (n i : ℕ) (d : α) (h : i < n) :
    ((List.range n).map f).getD i d = f i := by
  rw [getD_of_lt _ _ _ (by simpa using h)]
  simp

/-- Value of `getD` on a `zipWith` of two sufficiently long lists. -/
theorem getD_zipWith {α β γ : Type} (f : α → β → γ) (la : List α) (lb : List β)
    (i : ℕ) (da : α) (db : β) (dc : γ) (ha : i < la.length) (hb : i < lb.length) :
    (List.zipWith f la lb).getD i dc = f (la.getD i da) (lb.getD i db) := by
  have hl : i < (List.zipWith f la lb).length := by
    rw [List.length_zipWith]; omega
  rw [getD_of_lt _ _ _ hl, getD_of_lt _ _ _ ha, getD_of_lt _ _ _ hb]
  simp

/-- An in-range `getD` value is a member of the list. -/
theorem getD_mem {α : Type} (l : List α) (i : ℕ) (d : α) (h : i < l.length) :
    l.getD i d ∈ l := by
  rw [getD_of_lt _ _ _ h]
  exact List.getElem_mem h

/-- A cell whose `isNan` test is false is not NaN. -/
theorem F_ne_nan_of_isNan_false {x : F} (h : x.isNan = false) : x ≠ F.nan := by
  cases x <;> simp_all [F.isNan]

/-- A symbolic cell whose `isNan` test is false is not NaN. -/
theorem SCell_ne_nan_of_isNan_false {x : SCell} (h : x.isNan = false) : x ≠ SCell.nan := by
  cases x <;> simp_all [SCell.isNan]

/-- Lengths of the rolling mean. -/
theorem rollingMean_length (k : ℕ) (l : List F) : (rollingMean k l).length = l.length := by
  simp [rollingMean]

/-- Length of the delta column. -/
theorem delta_length (closes : List ℚ) : (delta closes).length = closes.length := by
  simp [delta]

/-- Length of the gain column. -/
theorem gain_length (closes : List ℚ) : (gain closes).length = closes.length := by
  simp [gain, delta_length]

/-- Length of the loss column. -/
theorem loss_length (closes : List ℚ) : (loss closes).length = closes.length := by
  simp [loss, delta_length]

/-- Length of the RSI column. -/
theorem rsiCol_length (closes : List ℚ) : (rsiCol closes).length = closes.length := by
  simp [rsiCol, gainAvg, lossAvg, List.length_zipWith, rollingMean_length,
    gain_length, loss_length]

/-- Every delta cell is NaN or a finite value. -/
theorem delta_entries (closes : List ℚ) :
    ∀ x ∈ delta closes, x = F.nan ∨ ∃ q, x = F.val q := by
  intro x hx
  simp only [delta, List.mem_map, List.mem_range] at hx
  obtain ⟨i, -, rfl⟩ := hx
  by_cases h0 : i = 0
  · simp [h0]
  · simp [h0]

/-- Every gain cell is a finite nonnegative value. -/
theorem gain_entries (closes : List ℚ) :
    ∀ x ∈ gain closes, ∃ q, x = F.val q ∧ 0 ≤ q := by
  intro x hx
  simp only [gain, List.mem_map] at hx
  obtain ⟨d, hd, rfl⟩ := hx
  rcases delta_entries closes d hd with h | ⟨q, h⟩ <;> subst h
  · exact ⟨0, rfl, le_refl 0⟩
  · by_cases hq : 0 < q
    · exact ⟨q, by simp [hq], le_of_lt hq⟩
    · exact ⟨0, by simp [hq], le_refl 0⟩

/-- Every loss cell is a finite nonnegative value. -/
theorem loss_entries (closes : List ℚ) :
    ∀ x ∈ loss closes, ∃ q, x = F.val q ∧ 0 ≤ q := by
  intro x hx
  simp only [loss, List.mem_map] at hx
  obtain ⟨d, hd, rfl⟩ := hx
  rcases delta_entries closes d hd with h | ⟨q, h⟩ <;> subst h
  · exact ⟨0, rfl, le_refl 0⟩
  · by_cases hq : q < 0
    · exact ⟨-q, by simp [hq], by linarith⟩
    · exact ⟨0, by simp [hq], le_refl 0⟩

/-- A rolling mean over finite nonnegative cells is, at each index, either NaN or
a finite nonnegative value. -/
theorem rollingMean_getD_cases (k : ℕ) (l : List F)
    (hl : ∀ x ∈ l, ∃ q, x = F.val q ∧ 0 ≤ q) (i : ℕ) :
    (rollingMean k l).getD i F.nan = F.nan ∨
    ∃ q, (rollingMean k l).getD i F.nan = F.val q ∧ 0 ≤ q := by
  by_cases hi : i < l.length
  · rw [rollingMean, getD_range_map _ _ _ _ hi]
    by_cases h1 : i + 1 < k
    · left; simp [h1]
    · rw [if_neg h1]
      by_cases h2 : ((l.take (i + 1)).drop (i + 1 - k)).any F.isNan
      · left; simp [h2]
      · rw [if_neg h2]
        right
        refine ⟨_, rfl, ?_⟩
        apply div_nonneg _ (by positivity)
        apply List.sum_nonneg
        intro x hx
        simp only [List.mem_map] at hx
        obtain ⟨y, hy, rfl⟩ := hx
        have hyl : y ∈ l := List.take_subset _ _ (List.drop_subset _ _ hy)
        obtain ⟨q, rfl, hq⟩ := hl y hyl
        simpa [F.toQ] using hq
  · left
    apply getD_of_le
    rw [rollingMean_length]; omega

/-- Cells of `gainAvg` are NaN or finite nonnegative. -/
theorem gainAvg_getD_cases (closes : List ℚ) (i : ℕ) :
    (gainAvg closes).getD i F.nan = F.nan ∨
    ∃ q, (gainAvg closes).getD i F.nan = F.val q ∧ 0 ≤ q :=
  rollingMean_getD_cases 14 (gain closes) (gain_entries closes) i

/-- Cells of `lossAvg` are NaN or finite nonnegative. -/
theorem lossAvg_getD_cases (closes : List ℚ) (i : ℕ) :
    (lossAvg closes).getD i F.nan = F.nan ∨
    ∃ q, (lossAvg closes).getD i F.nan = F.val q ∧ 0 ≤ q :=
  rollingMean_getD_cases 14 (loss closes) (loss_entries closes) i

/-- RSI of a NaN gain average. -/
theorem rsiOf_nan_left (y : F) : rsiOf F.nan y = F.nan := by
  cases y <;> rfl

/-- RSI of a NaN loss average. -/
theorem rsiOf_nan_right (x : F) : rsiOf x F.nan = F.nan := by
  cases x <;> rfl

/-- RSI when the average loss is 0 and the average gain is positive: the rational
slips to `+inf` and the formula collapses to exactly 100. -/
theorem rsiOf_pos_zero (g : ℚ) (hg : 0 < g) :
    rsiOf (F.val g) (F.val 0) = F.val 100 := by
  have h1 : F.div (F.val g) (F.val 0) = F.inf := by
    simp [F.div, hg, ne_of_gt hg]
  rw [rsiOf, h1]
  with_unfolding_all decide

/-- RSI of finite nonnegative averages: NaN exactly when both are 0 (the `0/0`
case), otherwise a finite value in `[0, 100]`. -/
theorem rsiOf_val_cases (g l : ℚ) (hg : 0 ≤ g) (hl : 0 ≤ l) :
    rsiOf (F.val g) (F.val l) = F.nan ∨
    ∃ q, rsiOf (F.val g) (F.val l) = F.val q ∧ 0 ≤ q ∧ q ≤ 100 := by
  rcases eq_or_lt_of_le hl with hl0 | hlpos
  · rcases eq_or_lt_of_le hg with hg0 | hgpos
    · left
      rw [← hl0, ← hg0]
      with_unfolding_all decide
    · right
      rw [← hl0, rsiOf_pos_zero g hgpos]
      exact ⟨100, rfl, by norm_num, le_refl 100⟩
  · right
    have hll : l ≠ 0 := ne_of_gt hlpos
    have hrs : (0 : ℚ) ≤ g / l := div_nonneg hg (le_of_lt hlpos)
    have hd : (0 : ℚ) < 1 + g / l := by linarith
    have h1 : F.div (F.val g) (F.val l) = F.val (g / l) := by simp [F.div, hll]
    have h2 : F.add (F.val 1) (F.val (g / l)) = F.val (1 + g / l) := rfl
    have h3 : F.div (F.val 100) (F.val (1 + g / l)) = F.val (100 / (1 + g / l)) := by
      simp [F.div, ne_of_gt hd]
    refine ⟨100 - 100 / (1 + g / l), ?_, ?_, ?_⟩
    · rw [rsiOf, h1, h2, h3]
      simp [F.sub, F.add, F.neg, sub_eq_add_neg]
    · have hle : (100 : ℚ) / (1 + g / l) ≤ 100 := div_le_self (by norm_num) (by linarith)
      linarith
    · have hpos : (0 : ℚ) < 100 / (1 + g / l) := div_pos (by norm_num) hd
      linarith

/-- The RSI cell at an in-range index is the RSI formula applied to the rolling
averages at that index. -/
theorem rsiCol_getD (closes : List ℚ) (i : ℕ) (h : i < closes.length) :
    (rsiCol closes).getD i F.nan =
      rsiOf ((gainAvg closes).getD i F.nan) ((lossAvg closes).getD i F.nan) := by
  apply getD_zipWith
  · rw [show (gainAvg closes).length = closes.length from by
      simp [gainAvg, rollingMean_length, gain_length]]
    exact h
  · rw [show (lossAvg closes).length = closes.length from by
      simp [lossAvg, rollingMean_length, loss_length]]
    exact h

/-- Every RSI cell is NaN or a finite value in `[0, 100]`. -/
theorem rsiCol_getD_cases (closes : List ℚ) (i : ℕ) :
    (rsiCol closes).getD i F.nan = F.nan ∨
    ∃ q, (rsiCol closes).getD i F.nan = F.val q ∧ 0 ≤ q ∧ q ≤ 100 := by
  by_cases hi : i < closes.length
  · rw [rsiCol_getD closes i hi]
    rcases gainAvg_getD_cases closes i with hg | ⟨g, hg, hg0⟩
    · rw [hg]; left; exact rsiOf_nan_left _
    · rcases lossAvg_getD_cases closes i with hl | ⟨l, hl, hl0⟩
      · rw [hg, hl]; left; exact rsiOf_nan_right _
      · rw [hg, hl]; exact rsiOf_val_cases g l hg0 hl0
  · left
    apply getD_of_le
    rw [rsiCol_length]; omega

/-- Unfolding of the `dropna` row predicate into its six conjuncts. -/
theorem keep_eq_true_iff (bars : List PriceBar) (i : ℕ) :
    keep bars i = true ↔
      ((rsiCol (closesOf bars)).getD i F.nan).isNan = false
      ∧ ((sma20Col (closesOf bars)).getD i F.nan).isNan = false
      ∧ ((stdCol (closesOf bars)).getD i SCell.nan).isNan = false
      ∧ ((lowerCol (closesOf bars)).getD i SCell.nan).isNan = false
      ∧ ((upperCol (closesOf bars)).getD i SCell.nan).isNan = false
      ∧ ((atrCol bars).getD i F.nan).isNan = false := by
  simp [keep, Bool.and_eq_true, and_assoc]

/-- Returned frame of `add_indicators` on sufficient input. -/
theorem add_indicators_snd (df : DF) (h : ¬(df.bars.isEmpty ∨ df.bars.length < 20)) :
    (add_indicators df).2 = dropnaDF df.bars := by
  unfold add_indicators
  rw [if_neg h]

/-- Returned frame of `add_indicators` on short input. -/
theorem add_indicators_snd_short (df : DF) (h : df.bars.isEmpty ∨ df.bars.length < 20) :
    (add_indicators df).2 = emptyDF := by
  unfold add_indicators
  rw [if_pos h]

/-- Caller frame after `add_indicators` on sufficient input: the six indicator
columns have been assigned in place. -/
theorem add_indicators_fst (df : DF) (h : ¬(df.bars.isEmpty ∨ df.bars.length < 20)) :
    (add_indicators df).1 =
      { df with
          rsi := some (rsiCol (closesOf df.bars))
          sma20 := some (sma20Col (closesOf df.bars))
          std := some (stdCol (closesOf df.bars))
          lower := some (lowerCol (closesOf df.bars))
          upper := some (upperCol (closesOf df.bars))
          atr := some (atrCol df.bars) } := by
  unfold add_indicators
  rw [if_neg h]

/-- Caller frame after `add_indicators` on short input: untouched. -/
theorem add_indicators_fst_short (df : DF) (h : df.bars.isEmpty ∨ df.bars.length < 20) :
    (add_indicators df).1 = df := by
  unfold add_indicators
  rw [if_pos h]

/-! ## Claims -/

/-- C1 (counterexample).  The claim says a negative fitted trend slope always
yields CAGR exactly 0%.  On the strictly decreasing positive series
`[18, 16, 14, 12, 10]` the slope is `-2 < 0`, yet both trendline endpoints are
positive (18 and 10), so wb.py takes the formula branch and the CAGR is
`(5/9) ^ (1/4) - 1`, which is strictly negative, not 0. -/
theorem cagr_negative_slope_not_zero :
    polyfitSlope y_negslope < 0
    ∧ computeCagr y_negslope = Cagr.formula (5 / 9) 4
    ∧ ((5 : ℝ) / 9) ^ ((1 : ℝ) / 4) - 1 ≠ 0 := by
  refine ⟨by with_unfolding_all decide, by with_unfolding_all decide, ?_⟩
  have h1 : ((5 : ℝ) / 9) ^ ((1 : ℝ) / 4) < 1 :=
    Real.rpow_lt_one (by norm_num) (by norm_num) (by norm_num)
  intro h
  rw [sub_eq_zero] at h
  rw [h] at h1
  exact lt_irrefl 1 h1

/-- C1 (amended).  CAGR derivation follows the priority order of wb.py
lines 62-70: (a) both trendline endpoints positive — even with a negative
slope — gives the formula `(reg_end / reg_start) ^ (1/(n-1)) - 1`; (b) otherwise
a positive slope gives the 5% default; (c) otherwise CAGR is exactly 0%.  (The
NaN fail-safe of line 72 is unreachable in exact arithmetic.) -/
theorem cagr_priority_order (y : List ℚ) (h : 2 ≤ y.length) :
    (0 < reg_start y → 0 < reg_end y →
      computeCagr y = Cagr.formula (reg_end y / reg_start y) (y.length - 1))
    ∧ (¬(0 < reg_start y ∧ 0 < reg_end y) → 0 < polyfitSlope y →
      computeCagr y = Cagr.pct5)
    ∧ (¬(0 < reg_start y ∧ 0 < reg_end y) → polyfitSlope y ≤ 0 →
      computeCagr y = Cagr.pct0) := by
  refine ⟨fun ha hb => ?_, fun hn hs => ?_, fun hn hs => ?_⟩ <;> unfold computeCagr
  · rw [if_pos h, if_pos ⟨ha, hb⟩]
  · rw [if_pos h, if_neg hn, if_pos hs]
  · rw [if_pos h, if_neg hn, if_neg (not_lt.mpr hs)]

/-- C1 (witness).  On the spec example `[10, 12, 14, 16, 18]` the formula branch
fires with ratio `18/10 = 9/5` over 4 periods. -/
theorem cagr_priority_order_witness :
    computeCagr y_linear = Cagr.formula (9 / 5) 4 := by
  have h := (cagr_priority_order y_linear (by with_unfolding_all decide)).1
    (by with_unfolding_all decide) (by with_unfolding_all decide)
  rw [h]
  with_unfolding_all decide

/-- C2 (code bug).  The spec-intended fallback P/E is latest price over latest
earnings (here `100 / 10 = 10`), but wb.py line 91 reads `end_eps` before it is
assigned (line 124), so the `NameError` is swallowed by the bare `except` and the
code always produces the constant 15. -/
theorem current_pe_fallback_bug :
    current_pe none (some 100) = 15
    ∧ current_pe_spec none 100 10 = 10
    ∧ current_pe none (some 100) ≠ current_pe_spec none 100 10 := by
  with_unfolding_all decide

/-- C3 (counterexample).  The claim says the 10-year projection compounds on the
trendline end value.  On `[10, 12, 14, 16, 30]` the raw latest EPS is 30 while
the trendline end is `126/5 = 25.2`; wb.py line 124 takes the raw value, and the
two projections `base * (1+cagr)^10` differ because the common growth factor
`((63/19) ^ (1/4)) ^ 10` (from `computeCagr`) is positive. -/
theorem projection_base_uses_raw_eps_cex :
    base_eps y_convex = 30
    ∧ reg_end y_convex = 126 / 5
    ∧ base_eps y_convex ≠ reg_end y_convex
    ∧ computeCagr y_convex = Cagr.formula (63 / 19) 4
    ∧ (base_eps y_convex : ℝ) * (((63 : ℝ) / 19) ^ ((1 : ℝ) / 4)) ^ 10 ≠
        (reg_end y_convex : ℝ) * (((63 : ℝ) / 19) ^ ((1 : ℝ) / 4)) ^ 10 := by
  have hb : base_eps y_convex = 30 := by with_unfolding_all decide
  have hr : reg_end y_convex = 126 / 5 := by with_unfolding_all decide
  refine ⟨hb, hr, by with_unfolding_all decide, by with_unfolding_all decide, ?_⟩
  have hg : (0 : ℝ) < ((63 : ℝ) / 19) ^ ((1 : ℝ) / 4) :=
    Real.rpow_pos_of_pos (by norm_num) _
  have hp : (0 : ℝ) < (((63 : ℝ) / 19) ^ ((1 : ℝ) / 4)) ^ 10 := pow_pos hg 10
  rw [hb, hr]
  intro h
  have h2 := mul_right_cancel₀ (ne_of_gt hp) h
  norm_num at h2

/-- C3 (amended).  The trendline endpoints are used only for the CAGR itself
(formula branch ratio `reg_end / reg_start`); the normalized earnings base of the
10-year projection is the raw latest reported EPS, `eps_data.iloc[-1]`. -/
theorem projection_base_is_raw_last_eps (y : List ℚ) (h : y ≠ []) :
    base_eps y = y.getLast h
    ∧ (2 ≤ y.length → 0 < reg_start y → 0 < reg_end y →
        computeCagr y = Cagr.formula (reg_end y / reg_start y) (y.length - 1)) := by
  constructor
  · rw [base_eps, end_eps, List.getLast?_eq_getLast y h]
    rfl
  · intro h2 ha hb
    unfold computeCagr
    rw [if_pos h2, if_pos ⟨ha, hb⟩]

/-- C3 (witness). -/
theorem projection_base_is_raw_last_eps_witness :
    base_eps y_convex = 30 ∧ computeCagr y_convex = Cagr.formula (63 / 19) 4 := by
  have h := projection_base_is_raw_last_eps y_convex (by with_unfolding_all decide)
  constructor
  · rw [h.1]
    with_unfolding_all decide
  · have h2 := h.2 (by with_unfolding_all decide) (by with_unfolding_all decide)
      (by with_unfolding_all decide)
    rw [h2]
    with_unfolding_all decide

/-- C10.  When no historical multiple survives the filters, `avg_pe` defaults to
the current P/E, `min` collapses, and the floor at 5 makes the projected multiple
exactly `max(current P/E, 5)`. -/
theorem projected_pe_no_history (pairs : List (ℚ × ℚ)) (cpe : ℚ)
    (h : pe_ratios pairs = []) :
    projected_pe pairs cpe = max cpe 5 := by
  have ha : avg_pe pairs cpe = cpe := by
    unfold avg_pe
    rw [h]
    simp
  unfold projected_pe
  rw [ha, min_self]
  show (if cpe < 5 then (5 : ℚ) else cpe) = max cpe 5
  rcases lt_or_le cpe 5 with hlt | hle
  · rw [if_pos hlt, max_eq_right (le_of_lt hlt)]
  · rw [if_neg (not_lt.mpr hle), max_eq_left hle]

/-- C10 (witness).  With a negative-earnings year and a 200x multiple year the
filter retains nothing, and a current P/E of 3 is floored to 5. -/
theorem projected_pe_no_history_witness :
    projected_pe [((-1 : ℚ), 100), (2, 400)] 3 = max 3 5 :=
  projected_pe_no_history [((-1 : ℚ), 100), (2, 400)] 3 (by with_unfolding_all decide)

/-- C6 (counterexample).  On an empty index series the regime check does not
produce the fail-safe bearish verdict: `iloc[-1]` raises (modelled `none`), and
the broad-market call site at quant.py line 47 is unguarded, so the run crashes
instead of treating the index as bearish. -/
theorem regime_empty_not_handled :
    regimeBullish ([] : List ℚ) = none
    ∧ regimeBullish ([] : List ℚ) ≠ some false := by
  with_unfolding_all decide

/-- C6 (amended).  For a nonempty series with fewer than 50 bars the comparison
against the NaN rolling mean yields bearish (`false`) without crashing; with at
least 50 bars the filter is bullish exactly when the latest close exceeds the
50-bar SMA.  On an empty series the market path raises, while the sector path
skips the index so the `SectorMap` lookup defaults to bearish. -/
theorem regime_filter_behavior (closes : List ℚ) (h : closes ≠ []) :
    (closes.length < 50 → regimeBullish closes = some false)
    ∧ (50 ≤ closes.length →
        (regimeBullish closes = some true ↔
          (closes.drop (closes.length - 50)).sum / 50 < closes.getLast h))
    ∧ sector_bullish [] = false := by
  have hl : closes.getLast? = some (closes.getLast h) := List.getLast?_eq_getLast closes h
  refine ⟨?_, ?_, by with_unfolding_all decide⟩
  · intro hlt
    have hs : sma50Last closes = none := by
      unfold sma50Last
      rw [if_neg (by omega)]
    unfold regimeBullish
    rw [hl, hs]
  · intro hge
    have hs : sma50Last closes = some ((closes.drop (closes.length - 50)).sum / 50) := by
      unfold sma50Last
      rw [if_pos hge]
    unfold regimeBullish
    rw [hl, hs]
    simp [decide_eq_true_iff]

set_option maxRecDepth 8000 in
/-- C6 (witness).  A strictly increasing 50-bar series is classified bullish; a
3-bar series is classified bearish without crashing. -/
theorem regime_filter_behavior_witness :
    regimeBullish demoCloses50 = some true ∧ regimeBullish [1, 2, 3] = some false := by
  constructor
  · exact ((regime_filter_behavior demoCloses50 (by with_unfolding_all decide)).2.1
      (by with_unfolding_all decide)).mpr (by with_unfolding_all decide)
  · exact (regime_filter_behavior [1, 2, 3] (by with_unfolding_all decide)).1
      (by with_unfolding_all decide)

/-- C8.  The shortlist — sort ascending by RSI, `head(10)` — always has at most
ten rows and is sorted ascending by RSI. -/
theorem shortlist_sorted_le_ten (rows : List ScanRow) :
    (shortlist rows).length ≤ 10
    ∧ List.Sorted (fun a b : ScanRow => a.rsi ≤ b.rsi) (shortlist rows) := by
  haveI h1 : IsTotal ScanRow (fun a b => a.rsi ≤ b.rsi) := ⟨fun a b => le_total a.rsi b.rsi⟩
  haveI h2 : IsTrans ScanRow (fun a b => a.rsi ≤ b.rsi) :=
    ⟨fun _ _ _ hab hbc => le_trans hab hbc⟩
  unfold shortlist
  constructor
  · exact List.length_take_le 10 _
  · exact List.Pairwise.sublist (List.take_sublist _ _) (List.sorted_insertionSort _ _)

/-- C9.  The exit target is `price * (1 + |dist|/100 + 0.03)`; at
`price = 100, dist = -10` that is exactly 113. -/
theorem target_price_formula :
    (∀ price dist : ℚ, target_price price dist = price * (1 + |dist| / 100 + 3 / 100))
    ∧ target_price 100 (-10) = 113 :=
  ⟨fun _ _ => rfl, by with_unfolding_all decide⟩

/-- C4.  Every RSI value in the rows returned by `add_indicators` is a finite
rational in `[0, 100]`; and on any row that survives `dropna()` whose 14-bar
rolling average loss is exactly 0, the RSI is exactly 100 (the division by zero
produced `+inf` and the formula collapsed, rather than propagating NaN into the
output).  The only 0-loss windows not covered are the all-flat ones
(`gain = loss = 0`), whose rows are dropped and hence never reach the output. -/
theorem rsi_output_bounds (bars : List PriceBar) :
    (∀ x ∈ ((add_indicators (mkDF bars)).2.rsi).getD [],
        ∃ q, x = F.val q ∧ 0 ≤ q ∧ q ≤ 100)
    ∧ (∀ i : ℕ, keep bars i = true →
        (lossAvg (closesOf bars)).getD i F.nan = F.val 0 →
        (rsiCol (closesOf bars)).getD i F.nan = F.val 100) := by
  constructor
  · intro x hx
    by_cases hc : (mkDF bars).bars.isEmpty ∨ (mkDF bars).bars.length < 20
    · rw [add_indicators_snd_short _ hc] at hx
      simp [emptyDF, mkDF] at hx
    · rw [add_indicators_snd _ hc] at hx
      simp only [dropnaDF, Option.getD_some, List.mem_map] at hx
      obtain ⟨i, hi, rfl⟩ := hx
      have hk : keep (mkDF bars).bars i = true := by
        simp only [keepIdx, List.mem_filter, List.mem_range] at hi
        exact hi.2
      have h1 := ((keep_eq_true_iff (mkDF bars).bars i).mp hk).1
      rcases rsiCol_getD_cases (closesOf (mkDF bars).bars) i with hnan | ⟨q, hq, h0, h100⟩
      · rw [hnan] at h1
        simp [F.isNan] at h1
      · exact ⟨q, hq, h0, h100⟩
  · intro i hk hl0
    have h1 := ((keep_eq_true_iff bars i).mp hk).1
    have hlen : i < (closesOf bars).length := by
      by_contra hge
      push_neg at hge
      rw [getD_of_le _ _ _ (by rw [rsiCol_length]; exact hge)] at h1
      simp [F.isNan] at h1
    rw [rsiCol_getD _ _ hlen] at h1 ⊢
    rw [hl0] at h1 ⊢
    rcases gainAvg_getD_cases (closesOf bars) i with hg | ⟨g, hg, hg0⟩
    · rw [hg, rsiOf_nan_left] at h1
      simp [F.isNan] at h1
    · rw [hg] at h1 ⊢
      rcases eq_or_lt_of_le hg0 with hg0e | hgpos
      · exfalso
        rw [← hg0e] at h1
        rw [show rsiOf (F.val 0) (F.val 0) = F.nan from by with_unfolding_all decide] at h1
        simp [F.isNan] at h1
      · exact rsiOf_pos_zero g hgpos

set_option maxRecDepth 200000 in
/-- C4 (witness).  On the 20 strictly increasing demo bars the single surviving
row (index 19) has rolling average loss 0 and RSI exactly 100. -/
theorem rsi_output_bounds_witness :
    (∃ q, F.val 100 = F.val q ∧ 0 ≤ q ∧ q ≤ 100)
    ∧ (rsiCol (closesOf demoBars)).getD 19 F.nan = F.val 100 :=
  ⟨(rsi_output_bounds demoBars).1 (F.val 100) (by with_unfolding_all decide),
    (rsi_output_bounds demoBars).2 19 (by with_unfolding_all decide)
      (by with_unfolding_all decide)⟩

/-- C5 (counterexample).  `add_indicators` is not free of side effects: on a
20-bar input frame with no indicator columns, the caller frame after the call
differs from the frame before it (the six `df[...] = ...` assignments added
columns in place). -/
theorem add_indicators_mutates_input :
    (add_indicators (mkDF demoBars)).1 ≠ mkDF demoBars := by
  intro h
  have h1 : (add_indicators (mkDF demoBars)).1.rsi = (mkDF demoBars).rsi := by rw [h]
  rw [add_indicators_fst _ (by with_unfolding_all decide)] at h1
  simp [mkDF] at h1

/-- C5 (amended).  `add_indicators` never modifies the raw price rows, its
returned frame is a pure function of the input price sequence alone (pre-existing
indicator columns are irrelevant), and on inputs shorter than 20 bars the caller
frame is left completely untouched; but on sufficient input it does mutate the
caller frame by writing the six indicator columns in place. -/
theorem add_indicators_effects (df : DF) :
    (add_indicators df).1.bars = df.bars
    ∧ (df.bars.length < 20 → (add_indicators df).1 = df)
    ∧ (add_indicators df).2 = (add_indicators (mkDF df.bars)).2 := by
  by_cases hc : df.bars.isEmpty ∨ df.bars.length < 20
  · have h1 := add_indicators_fst_short df hc
    have h2 := add_indicators_snd_short df hc
    have h3 := add_indicators_snd_short (mkDF df.bars) (by simpa [mkDF] using hc)
    exact ⟨by rw [h1], fun _ => h1, by rw [h2, h3]⟩
  · have h1 := add_indicators_fst df hc
    have h2 := add_indicators_snd df hc
    have h3 := add_indicators_snd (mkDF df.bars) (by simpa [mkDF] using hc)
    push_neg at hc
    refine ⟨by rw [h1], fun hlt => absurd hlt (by omega), by rw [h2, h3]; rfl⟩

/-- C5 (witness).  A 3-bar frame is returned through the short-input path with
the caller frame untouched. -/
theorem add_indicators_effects_witness :
    (add_indicators (mkDF shortBars)).1 = mkDF shortBars
    ∧ (add_indicators (mkDF shortBars)).1.bars = (mkDF shortBars).bars :=
  ⟨(add_indicators_effects (mkDF shortBars)).2.1 (by with_unfolding_all decide),
    (add_indicators_effects (mkDF shortBars)).1⟩

/-- C7.  Inputs shorter than 20 bars produce the empty frame (no partial rows);
on longer inputs every row of the returned frame has all six indicators defined,
because `dropna()` excludes every row with any NaN cell (warm-up rows included). -/
theorem indicator_output_defined (df : DF) :
    (df.bars.length < 20 → (add_indicators df).2 = emptyDF)
    ∧ (∀ x ∈ ((add_indicators df).2.rsi).getD [], x ≠ F.nan)
    ∧ (∀ x ∈ ((add_indicators df).2.sma20).getD [], x ≠ F.nan)
    ∧ (∀ x ∈ ((add_indicators df).2.std).getD [], x ≠ SCell.nan)
    ∧ (∀ x ∈ ((add_indicators df).2.lower).getD [], x ≠ SCell.nan)
    ∧ (∀ x ∈ ((add_indicators df).2.upper).getD [], x ≠ SCell.nan)
    ∧ (∀ x ∈ ((add_indicators df).2.atr).getD [], x ≠ F.nan) := by
  by_cases hc : df.bars.isEmpty ∨ df.bars.length < 20
  · rw [add_indicators_snd_short df hc]
    refine ⟨fun _ => rfl, ?_, ?_, ?_, ?_, ?_, ?_⟩ <;> simp [emptyDF, mkDF]
  · rw [add_indicators_snd df hc]
    have hc2 := hc
    push_neg at hc2
    refine ⟨fun hlt => absurd hlt (by omega), ?_, ?_, ?_, ?_, ?_, ?_⟩ <;>
    · intro x hx
      simp only [dropnaDF, Option.getD_some, List.mem_map] at hx
      obtain ⟨i, hi, rfl⟩ := hx
      have hk : keep df.bars i = true := by
        simp only [keepIdx, List.mem_filter, List.mem_range] at hi
        exact hi.2
      have hall := (keep_eq_true_iff df.bars i).mp hk
      first
        | exact F_ne_nan_of_isNan_false hall.1
        | exact F_ne_nan_of_isNan_false hall.2.1
        | exact SCell_ne_nan_of_isNan_false hall.2.2.1
        | exact SCell_ne_nan_of_isNan_false hall.2.2.2.1
        | exact SCell_ne_nan_of_isNan_false hall.2.2.2.2.1
        | exact F_ne_nan_of_isNan_false hall.2.2.2.2.2

set_option maxRecDepth 200000 in
/-- C7 (witness).  The 3-bar frame yields the empty result; the 20-bar demo frame
yields rows whose RSI cells are all defined. -/
theorem indicator_output_defined_witness :
    (add_indicators (mkDF shortBars)).2 = emptyDF ∧ F.val 100 ≠ F.nan :=
  ⟨(indicator_output_defined (mkDF shortBars)).1 (by with_unfolding_all decide),
    (indicator_output_defined (mkDF demoBars)).2.1 (F.val 100)
      (by with_unfolding_all decide)⟩
